import Mathlib

/-!
RobotiqGripper: the command and query transport

A shallow embedding of `communication_port.h`, `communication_port.cpp`,
`gripper.h` and `gripper.cpp`, followed by theorems about the register
file, the frame layout and the response loop.

Conventions of the embedding

* A byte (`char`, `quint8`) is a natural number below 256; a `QByteArray`
  is a `List Nat`.  Conversions to an 8 or 16 bit type are written
  `% 256` and `% 65536`.
* `QDataStream` writes big-endian (the Qt default): a `quint16` is two
  bytes, high byte first.
* In `sendReadCommand` the checksum call is an operand of the same chain of
  `<<` that streams the header.  C++ fixes the order of these operands only
  from C++17 on; before that the call may run while the array is still
  empty.  The order is therefore a parameter, `OperandOrder`.  In
  `sendWriteCommand` the checksum is a statement of its own and no such
  question arises.
* `modbus_crc.h` is not part of the sources at hand, so the checksum is a
  parameter `checksum : List Nat → Nat` of everything that builds a frame;
  its result is streamed as a `quint16`.
* The serial line is a script: the list of outcomes of the successive calls
  of `waitForReadyRead`.  `some chunk` is a wait that succeeds after
  `chunk` has been appended to the read buffer, `none` is a wait that
  times out.  After the end of the script every wait times out.
-/

namespace robotiq

/-! ## Enumerations and constants of `communication_port.h` -/

/-- Topics of `sendCommand`. -/
inductive CommandTopic where
  | Activation
  | Move
  | RequestedPosition
  | Speed
  | Force
  deriving DecidableEq, Repr

/-- Topics of `query`. -/
inductive QueryTopic where
  | Activation
  deriving DecidableEq, Repr

/-- Enumerator `WriteRegisterAddress::ActionRequest`. -/
def WriteRegisterAddress.ActionRequest : Int := 0x00
/-- Enumerator `WriteRegisterAddress::PositionRequest`. -/
def WriteRegisterAddress.PositionRequest : Int := 0x03
/-- Enumerator `WriteRegisterAddress::Speed`. -/
def WriteRegisterAddress.Speed : Int := 0x04
/-- Enumerator `WriteRegisterAddress::Force`. -/
def WriteRegisterAddress.Force : Int := 0x05

/-- Enumerator `ActionRequestBitField::Activation`. -/
def ActionRequestBitField.Activation : Int := 0x00
/-- Enumerator `ActionRequestBitField::GoTo`. -/
def ActionRequestBitField.GoTo : Int := 0x03

/-- Enumerator `GripperStatusBitField::Activation`. -/
def GripperStatusBitField.Activation : Nat := 0x01
/-- Enumerator `GripperStatusBitField::GoTo`. -/
def GripperStatusBitField.GoTo : Nat := 0x03
/-- Enumerator `GripperStatusBitField::GripperStatusLowBit`. -/
def GripperStatusBitField.GripperStatusLowBit : Nat := 0x04
/-- Enumerator `GripperStatusBitField::GripperStatusHighBit`. -/
def GripperStatusBitField.GripperStatusHighBit : Nat := 0x05

/-- Constant `numberOfWriteRegisters`. -/
def numberOfWriteRegisters : Nat := 8
/-- Constant `slaveId`. -/
def slaveId : Nat := 0x09
/-- Constant `writeRegisterCode`. -/
def writeRegisterCode : Nat := 0x10
/-- Constant `readRegisterCode`. -/
def readRegisterCode : Nat := 0x03
/-- Constant `writeRegistersStart`, `0x03 << 8 | 0xE8`. -/
def writeRegistersStart : Nat := (0x03 <<< 8) ||| 0xE8
/-- Constant `readRegistersStart`, `0x07 << 8 | 0xD0`. -/
def readRegistersStart : Nat := (0x07 <<< 8) ||| 0xD0

/-! ## Qt primitives used by the sources -/

/-- What `QDataStream::operator<<(quint16)` appends: the value reduced to
16 bits, high byte first. -/
def u16be (x : Nat) : List Nat := [(x / 256) % 256, x % 256]

/-- `QByteArray::mid(pos, len)` for non-negative `pos` and `len`: at most
`len` bytes starting at `pos`, fewer when the array ends earlier. -/
def mid (a : List Nat) (pos len : Nat) : List Nat := (a.drop pos).take len

/-- `QByteArray::resize(size)`.  Shrinking truncates.  Growing appends
bytes that Qt leaves uninitialised; their content is whatever the
allocation holds, given here by `fresh`. -/
def resize (a : List Nat) (size : Nat) (fresh : Nat → Nat) : List Nat :=
  if size ≤ a.length then a.take size
  else a ++ (List.range (size - a.length)).map (fun k => fresh k % 256)

/-- Reading `a[i]` of a `QByteArray` through a `QByteRef`, for an index
inside the array. -/
def byteAt (a : List Nat) (i : Nat) : Nat := a.getD i 0

/-- Assigning `a[i] = c` through a `QByteRef`, for an index inside the
array (every address of the catalog is below the 16 bytes of the register
file, so the array never grows here). -/
def setByte (a : List Nat) (i : Nat) (c : Nat) : List Nat := a.set i c

/-- Outcome of one `waitForReadyRead` call: `some chunk` when the wait
succeeds with `chunk` newly received, `none` when it times out. -/
abbrev Event := Option (List Nat)

/-- The `QSerialPort` as the program sees it.  `written` lists the arrays
passed to `write`, oldest first; `readBuffer` holds the bytes received and
not yet read; `script` holds the outcomes of the future waits; `waits`
counts the `waitForReadyRead` calls made so far. -/
structure SerialPort where
  written : List (List Nat)
  readBuffer : List Nat
  script : List Event
  waits : Nat
  deriving DecidableEq, Repr

/-- `QSerialPort::write(arr)`. -/
def SerialPort.write (p : SerialPort) (arr : List Nat) : SerialPort :=
  { p with written := p.written ++ [arr] }

/-- `QSerialPort::flush()`: pushes pending output to the device; the read
buffer is not touched. -/
def SerialPort.flush (p : SerialPort) : SerialPort := p

/-- `QSerialPort::bytesAvailable()`. -/
def SerialPort.bytesAvailable (p : SerialPort) : Nat := p.readBuffer.length

/-- `QSerialPort::read(maxSize)`: removes and returns up to `maxSize`
bytes from the front of the read buffer. -/
def SerialPort.read (p : SerialPort) (maxSize : Nat) : List Nat × SerialPort :=
  (p.readBuffer.take maxSize, { p with readBuffer := p.readBuffer.drop maxSize })

/-- The response loop shared by `sendWriteCommand` and `sendReadCommand`:

    while (m_port.waitForReadyRead(timeout)) {
        if (m_port.bytesAvailable() >= bytesExpected) {
            response = m_port.read(bytesExpected);
        }
    }

The first argument is the script of the port; each call of
`waitForReadyRead` consumes one outcome.  The result is the port and the
value of `response` when the loop exits. -/
def waitLoop (bytesExpected : Nat) :
    List Event → SerialPort → List Nat → SerialPort × List Nat
  | [], p, response =>
      ({ p with script := [], waits := p.waits + 1 }, response)
  | none :: rest, p, response =>
      ({ p with script := rest, waits := p.waits + 1 }, response)
  | some chunk :: rest, p, response =>
      let p1 : SerialPort :=
        { p with script := rest, readBuffer := p.readBuffer ++ chunk, waits := p.waits + 1 }
      if bytesExpected ≤ p1.bytesAvailable then
        let r := p1.read bytesExpected
        waitLoop bytesExpected rest r.2 r.1
      else
        waitLoop bytesExpected rest p1 response

/-! ## `communication_port.cpp` -/

/-- The free function `setBit(QByteRef byte, int pos, bool value)`:
`byte = static_cast<char>(byte | (value << pos))`. -/
def setBit (byte : Nat) (pos : Nat) (value : Bool) : Nat :=
  (byte ||| ((if value then 1 else 0) <<< pos)) % 256

/-- The object `CommunicationPort`: the serial port and the shadow copy of
the write registers. -/
structure CommunicationPort where
  m_port : SerialPort
  m_writeRegisters : List Nat
  deriving DecidableEq, Repr

/-- The constructor `CommunicationPort::CommunicationPort(portName)`.  The
register file starts as an empty `QByteArray` and is resized to
`numberOfWriteRegisters * 2` bytes; `fresh` is the content of the bytes
that `resize` leaves uninitialised, `script` the future of the line. -/
def CommunicationPort.construct (script : List Event) (fresh : Nat → Nat) :
    CommunicationPort :=
  { m_port := { written := [], readBuffer := [], script := script, waits := 0 }
    m_writeRegisters := resize [] (numberOfWriteRegisters * 2) fresh }

/-- `CommunicationPort::sendWriteCommand(quint8 index, quint16 numberOfRegisters)`. -/
def CommunicationPort.sendWriteCommand (checksum : List Nat → Nat)
    (cp : CommunicationPort) (index numberOfRegisters : Nat) : CommunicationPort :=
  let index := index % 256
  let numberOfRegisters := numberOfRegisters % 65536
  let data := mid cp.m_writeRegisters index (numberOfRegisters * 2)
  let arr := [slaveId, writeRegisterCode]
    ++ u16be ((writeRegistersStart + index) % 65536)
    ++ u16be numberOfRegisters
    ++ [data.length % 256]
  let arr := arr ++ data
  let arr := arr ++ u16be (checksum (arr.take (arr.length % 65536)))
  let port := cp.m_port.write arr
  let bytesExpected := 8
  let r := waitLoop bytesExpected port.script port []
  { cp with m_port := r.1 }

/-- `CommunicationPort::sendCommand(CommandTopic property, quint8 value)`. -/
def CommunicationPort.sendCommand (checksum : List Nat → Nat)
    (cp : CommunicationPort) (property : CommandTopic) (value : Nat) : CommunicationPort :=
  let value := value % 256
  let d : Nat × Int × Int :=
    match property with
    | .Activation =>
        (3, WriteRegisterAddress.ActionRequest, ActionRequestBitField.Activation)
    | .Move =>
        (1, WriteRegisterAddress.ActionRequest, ActionRequestBitField.GoTo)
    | .RequestedPosition =>
        (1, WriteRegisterAddress.PositionRequest, -1)
    | .Speed =>
        (1, WriteRegisterAddress.Speed, -1)
    | .Force =>
        (1, WriteRegisterAddress.Force, -1)
  let numberOfRegisters := d.1
  let address := d.2.1.toNat % 256
  let bitField := d.2.2
  let regs :=
    if bitField ≠ -1 then
      setByte cp.m_writeRegisters address
        (setBit (byteAt cp.m_writeRegisters address) bitField.toNat (value != 0))
    else
      setByte cp.m_writeRegisters address value
  CommunicationPort.sendWriteCommand checksum { cp with m_writeRegisters := regs }
    address numberOfRegisters

/-- Order in which the operands of the statement

    out << slaveId << readRegisterCode << ... << numberOfRegisters
        << checksum(arr.data(), arr.size());

of `sendReadCommand` are evaluated.  `checksumFirst`: the checksum call
runs before anything has been streamed, which the language allows before
C++17.  `leftToRight`: the call runs after the six header bytes have been
streamed, the order C++17 prescribes. -/
inductive OperandOrder where
  | checksumFirst
  | leftToRight
  deriving DecidableEq, Repr

/-- `CommunicationPort::sendReadCommand(quint8 index, quint16 numberOfRegisters)`:
the returned array and the object afterwards.  `seen` is the content of
`arr` at the moment the checksum call reads it. -/
def CommunicationPort.sendReadCommand (order : OperandOrder) (checksum : List Nat → Nat)
    (cp : CommunicationPort) (index numberOfRegisters : Nat) :
    List Nat × CommunicationPort :=
  let index := index % 256
  let numberOfRegisters := numberOfRegisters % 65536
  let port := cp.m_port.flush
  let header := [slaveId, readRegisterCode]
    ++ u16be ((readRegistersStart + index) % 65536)
    ++ u16be numberOfRegisters
  let seen : List Nat :=
    match order with
    | .checksumFirst => []
    | .leftToRight => header
  let arr := header ++ u16be (checksum (seen.take (seen.length % 65536)))
  let port := port.write arr
  let headerSize := 3
  let crcSize := 2
  let bytesExpected := headerSize + (numberOfRegisters * 2) + crcSize
  let r := waitLoop bytesExpected port.script port []
  (mid r.2 headerSize (numberOfRegisters * 2), { cp with m_port := r.1 })

/-- What can go wrong in `query`: `QByteArray::front()` called on an empty
array.  Qt leaves that call undefined; the C++ function has no failure
value of its own, so this marks a run that left the defined behaviour, not
an error handed to the caller. -/
inductive Fault where
  | frontOfEmptyArray
  deriving DecidableEq, Repr

/-- `QByteArray::front()`. -/
def front (a : List Nat) : Except Fault Nat :=
  match a with
  | [] => .error .frontOfEmptyArray
  | b :: _ => .ok b

/-- `CommunicationPort::query(QueryTopic topic)`: the returned `quint8` and
the object afterwards. -/
def CommunicationPort.query (order : OperandOrder) (checksum : List Nat → Nat)
    (cp : CommunicationPort) (topic : QueryTopic) :
    Except Fault Nat × CommunicationPort :=
  let d : Nat × Nat × Nat :=
    match topic with
    | .Activation =>
        (0, 1, GripperStatusBitField.Activation
                ||| GripperStatusBitField.GripperStatusLowBit
                ||| GripperStatusBitField.GripperStatusHighBit)
  let address := d.1
  let numberOfRegisters := d.2.1
  let mask := d.2.2
  let r := CommunicationPort.sendReadCommand order checksum cp address numberOfRegisters
  ((front r.1).map (fun b => (b &&& mask) % 256), r.2)

/-! ## `gripper.h`, `gripper.cpp` -/

/-- The object `Gripper`, with the members the commands below touch. -/
structure Gripper where
  m_port : CommunicationPort
  m_moving : Bool
  m_requestedPosition : Nat
  m_speed : Nat
  m_force : Nat
  deriving DecidableEq, Repr

/-- `Gripper::setMoving(bool value)`. -/
def Gripper.setMoving (checksum : List Nat → Nat) (g : Gripper) (value : Bool) : Gripper :=
  { g with
    m_port := g.m_port.sendCommand checksum .Move (if value then 1 else 0)
    m_moving := value }

/-- `Gripper::move()`. -/
def Gripper.move (checksum : List Nat → Nat) (g : Gripper) : Gripper :=
  g.setMoving checksum true

/-- `Gripper::stop()`. -/
def Gripper.stop (checksum : List Nat → Nat) (g : Gripper) : Gripper :=
  g.setMoving checksum false

/-- `Gripper::deactivate()`, that is `activate(false)`: the command is sent
and the wait for the activation status is skipped. -/
def Gripper.deactivate (checksum : List Nat → Nat) (g : Gripper) : Gripper :=
  { g with m_port := g.m_port.sendCommand checksum .Activation 0 }

/-- `Gripper::setRequestedPosition(quint8 position)`. -/
def Gripper.setRequestedPosition (checksum : List Nat → Nat) (g : Gripper)
    (position : Nat) : Gripper :=
  { g with
    m_port := g.m_port.sendCommand checksum .RequestedPosition position
    m_requestedPosition := position % 256 }

/-- `Gripper::setSpeed(quint8 speed)`. -/
def Gripper.setSpeed (checksum : List Nat → Nat) (g : Gripper) (speed : Nat) : Gripper :=
  { g with
    m_port := g.m_port.sendCommand checksum .Speed speed
    m_speed := speed % 256 }

/-- `Gripper::setForce(quint8 force)`. -/
def Gripper.setForce (checksum : List Nat → Nat) (g : Gripper) (force : Nat) : Gripper :=
  { g with
    m_port := g.m_port.sendCommand checksum .Force force
    m_force := force % 256 }

/-! ## Helpers for concrete runs -/

/-- A checksum used only to run the definitions on concrete inputs: the
sum of the bytes.  No theorem depends on it: the general theorems hold for every checksum
function. -/
def sumChecksum (bytes : List Nat) : Nat := bytes.sum

/-- The last array passed to `write`, empty when there is none. -/
def lastWritten (cp : CommunicationPort) : List Nat := cp.m_port.written.getLastD []

/-- A port whose register file was zeroed, in front of the given script. -/
def zeroedPort (script : List Event) : CommunicationPort :=
  CommunicationPort.construct script (fun _ => 0)

/-- A gripper on a zeroed port with a silent line, members at their
in-class initial values. -/
def idleGripper : Gripper :=
  { m_port := zeroedPort [], m_moving := false, m_requestedPosition := 0,
    m_speed := 255, m_force := 255 }

/-! ## The frame layouts as the specification words them

These definitions are not taken from the sources: they spell out the
frame layout and the catalog of the specification, to be compared with what
`sendCommand` and `sendReadCommand` write. -/

/-- Catalog of the specification: address of a command topic. -/
def specAddress : CommandTopic → Nat
  | .Activation => 0
  | .Move => 0
  | .RequestedPosition => 3
  | .Speed => 4
  | .Force => 5

/-- Catalog of the specification: register count of a command topic. -/
def specRegisterCount : CommandTopic → Nat
  | .Activation => 3
  | .Move => 1
  | .RequestedPosition => 1
  | .Speed => 1
  | .Force => 1

/-- Write frame of the specification: slave id `0x09`, function code `0x10`,
`0x03E8 + address` and `registerCount` as 16 bit values high byte first, the
byte count `registerCount * 2`, that many bytes of `regs` from `address`
on, and the checksum of all these bytes as a 16 bit value high byte
first. -/
def specWriteFrame (checksum : List Nat → Nat) (address registerCount : Nat)
    (regs : List Nat) : List Nat :=
  let body := [0x09, 0x10, (0x03E8 + address) / 256, (0x03E8 + address) % 256,
    registerCount / 256, registerCount % 256, registerCount * 2]
    ++ (regs.drop address).take (registerCount * 2)
  body ++ [checksum body / 256 % 256, checksum body % 256]

/-- Read frame of the specification: slave id `0x09`, function code `0x03`,
`0x07D0 + address` and `registerCount` as 16 bit values high byte first,
and the checksum of these six bytes as a 16 bit value high byte first. -/
def specReadFrame (checksum : List Nat → Nat) (address registerCount : Nat) : List Nat :=
  let body := [0x09, 0x03, (0x07D0 + address) / 256, (0x07D0 + address) % 256,
    registerCount / 256, registerCount % 256]
  body ++ [checksum body / 256 % 256, checksum body % 256]

/-! ## Auxiliary lemmas -/

theorem length_sixteen {regs : List Nat} (h : regs.length = 16) :
    ∃ a0 a1 a2 a3 a4 a5 a6 a7 a8 a9 a10 a11 a12 a13 a14 a15 : Nat,
      regs = [a0, a1, a2, a3, a4, a5, a6, a7, a8, a9, a10, a11, a12, a13, a14, a15] := by
  iterate 16 (rcases regs with _ | ⟨_, regs⟩; · simp at h)
  rcases regs with _ | ⟨_, _⟩
  · exact ⟨_, _, _, _, _, _, _, _, _, _, _, _, _, _, _, _, rfl⟩
  · simp at h

theorem testBit_setBit (b pos : Nat) (v : Bool) (j : Nat) (hb : b < 256) (hpos : pos < 8) :
    (setBit b pos v).testBit j = (b.testBit j || (v && decide (j = pos))) := by
  unfold setBit
  have h256 : (256 : Nat) = 2 ^ 8 := by norm_num
  rw [h256, Nat.testBit_mod_two_pow, Nat.testBit_or]
  by_cases hj : j < 8
  · cases v
    · simp [hj]
    · simp only [hj, decide_True, Bool.true_and, if_true, Nat.one_shiftLeft, Nat.testBit_two_pow]
      congr 1
      simp [eq_comm]
  · have hbj : b.testBit j = false := by
      apply Nat.testBit_lt_two_pow
      calc b < 2 ^ 8 := by omega
        _ ≤ 2 ^ j := Nat.pow_le_pow_right (by norm_num) (by omega)
    have hne : j ≠ pos := by omega
    simp [hj, hbj, hne]

theorem sendCommand_regs (checksum : List Nat → Nat) (cp : CommunicationPort)
    (t : CommandTopic) (value : Nat) :
    (cp.sendCommand checksum t value).m_writeRegisters =
      match t with
      | .Activation =>
          cp.m_writeRegisters.set 0 (setBit (cp.m_writeRegisters.getD 0 0) 0 (value % 256 != 0))
      | .Move =>
          cp.m_writeRegisters.set 0 (setBit (cp.m_writeRegisters.getD 0 0) 3 (value % 256 != 0))
      | .RequestedPosition => cp.m_writeRegisters.set 3 (value % 256)
      | .Speed => cp.m_writeRegisters.set 4 (value % 256)
      | .Force => cp.m_writeRegisters.set 5 (value % 256) := by
  cases t <;> rfl

theorem waitLoop_written (n : Nat) (script : List Event) :
    ∀ (p : SerialPort) (response : List Nat),
      (waitLoop n script p response).1.written = p.written := by
  induction script with
  | nil => intro p response; rfl
  | cons e rest ih =>
    intro p response
    cases e with
    | none => rfl
    | some chunk =>
      simp only [waitLoop]
      split
      · rw [ih]; rfl
      · rw [ih]

theorem sendWriteCommand_written (checksum : List Nat → Nat) (cp : CommunicationPort)
    (index numberOfRegisters : Nat) :
    (cp.sendWriteCommand checksum index numberOfRegisters).m_port.written =
      cp.m_port.written ++
        [([slaveId, writeRegisterCode]
            ++ u16be ((writeRegistersStart + index % 256) % 65536)
            ++ u16be (numberOfRegisters % 65536)
            ++ [(mid cp.m_writeRegisters (index % 256) (numberOfRegisters % 65536 * 2)).length % 256]
            ++ mid cp.m_writeRegisters (index % 256) (numberOfRegisters % 65536 * 2))
          ++ u16be (checksum
              (([slaveId, writeRegisterCode]
                ++ u16be ((writeRegistersStart + index % 256) % 65536)
                ++ u16be (numberOfRegisters % 65536)
                ++ [(mid cp.m_writeRegisters (index % 256) (numberOfRegisters % 65536 * 2)).length % 256]
                ++ mid cp.m_writeRegisters (index % 256) (numberOfRegisters % 65536 * 2)).take
                (([slaveId, writeRegisterCode]
                ++ u16be ((writeRegistersStart + index % 256) % 65536)
                ++ u16be (numberOfRegisters % 65536)
                ++ [(mid cp.m_writeRegisters (index % 256) (numberOfRegisters % 65536 * 2)).length % 256]
                ++ mid cp.m_writeRegisters (index % 256) (numberOfRegisters % 65536 * 2)).length
                  % 65536)))] := by
  simp only [CommunicationPort.sendWriteCommand, waitLoop_written, SerialPort.write]

/-! ## Register file: what a command changes -/

/-- C1 (the code departs from the claim).  On a zeroed register file,
`move()` followed by `stop()` leaves byte 0 at 8, that is with the GoTo bit
(bit 3) still set, and the frame written by `stop()` carries the payload
`8, 0`.  Likewise `deactivate()` after an Activation command with value 1
leaves byte 0 at 1 and sends the payload `1, 0, 0, 0, 0, 0`: `setBit` only
ever ORs a bit in, a false value clears nothing. -/
theorem stop_and_deactivate_leave_bit_set :
    ((idleGripper.move sumChecksum).stop sumChecksum).m_port.m_writeRegisters
        = [8, 0, 0, 0, 0, 0, 0, 0, 0, 0, 0, 0, 0, 0, 0, 0]
    ∧ lastWritten ((idleGripper.move sumChecksum).stop sumChecksum).m_port
        = [0x09, 0x10, 0x03, 0xE8, 0x00, 0x01, 0x02, 8, 0, 1, 15]
    ∧ Nat.testBit 8 3 = true
    ∧ (Gripper.deactivate sumChecksum
          { idleGripper with
            m_port := idleGripper.m_port.sendCommand sumChecksum .Activation 1 }).m_port.m_writeRegisters
        = [1, 0, 0, 0, 0, 0, 0, 0, 0, 0, 0, 0, 0, 0, 0, 0]
    ∧ lastWritten (Gripper.deactivate sumChecksum
          { idleGripper with
            m_port := idleGripper.m_port.sendCommand sumChecksum .Activation 1 }).m_port
        = [0x09, 0x10, 0x03, 0xE8, 0x00, 0x03, 0x06, 1, 0, 0, 0, 0, 0, 1, 14]
    ∧ Nat.testBit 1 0 = true := by
  refine ⟨?_, ?_, ?_, ?_, ?_, ?_⟩ <;> decide

/-- C2.  On a register file of 16 bytes, `sendCommand` keeps the length at
16, leaves every byte other than the one at the address of the topic as it
was, and for the two packed topics leaves every bit of byte 0 other than
the bit of the topic (bit 0 for Activation, bit 3 for Move) as it was. -/
theorem sendCommand_changes_only_owned (checksum : List Nat → Nat) (cp : CommunicationPort)
    (t : CommandTopic) (value : Nat)
    (hlen : cp.m_writeRegisters.length = 16)
    (hbyte : ∀ b ∈ cp.m_writeRegisters, b < 256) :
    (cp.sendCommand checksum t value).m_writeRegisters.length = 16
    ∧ (∀ i : Nat,
        i ≠ (match t with
            | .Activation => 0 | .Move => 0 | .RequestedPosition => 3 | .Speed => 4 | .Force => 5) →
        (cp.sendCommand checksum t value).m_writeRegisters[i]? = cp.m_writeRegisters[i]?)
    ∧ (t = .Activation → ∀ j : Nat, j ≠ 0 →
        ((cp.sendCommand checksum t value).m_writeRegisters.getD 0 0).testBit j
          = (cp.m_writeRegisters.getD 0 0).testBit j)
    ∧ (t = .Move → ∀ j : Nat, j ≠ 3 →
        ((cp.sendCommand checksum t value).m_writeRegisters.getD 0 0).testBit j
          = (cp.m_writeRegisters.getD 0 0).testBit j) := by
  have h0 : cp.m_writeRegisters.getD 0 0 < 256 := by
    obtain ⟨a0, a1, a2, a3, a4, a5, a6, a7, a8, a9, a10, a11, a12, a13, a14, a15, h⟩ :=
      length_sixteen hlen
    rw [h] at hbyte ⊢
    exact hbyte a0 (by simp)
  rw [sendCommand_regs]
  refine ⟨?_, ?_, ?_, ?_⟩
  · cases t <;> simp [hlen]
  · intro i hi
    cases t <;> simp only [] at hi ⊢ <;> exact List.getElem?_set_ne (Ne.symm hi)
  · rintro rfl j hj
    simp only []
    rw [List.getD_eq_getElem?_getD, List.getElem?_set_self (by omega)]
    simp only [Option.getD_some]
    rw [testBit_setBit _ _ _ _ h0 (by norm_num)]
    simp [hj]
  · rintro rfl j hj
    simp only []
    rw [List.getD_eq_getElem?_getD, List.getElem?_set_self (by omega)]
    simp only [Option.getD_some]
    rw [testBit_setBit _ _ _ _ h0 (by norm_num)]
    simp [hj]

/-- Witness of C2: a Move command with value 1 on a register file whose
byte 0 is `0x81`. -/
theorem sendCommand_changes_only_owned_witness :
    ([0x81, 0, 0, 7, 0, 0, 0, 0, 0, 0, 0, 0, 0, 0, 0, 0] : List Nat).length = 16
    ∧ (∀ b ∈ ([0x81, 0, 0, 7, 0, 0, 0, 0, 0, 0, 0, 0, 0, 0, 0, 0] : List Nat), b < 256)
    ∧ (CommunicationPort.sendCommand sumChecksum
        { m_port := (zeroedPort []).m_port
          m_writeRegisters := [0x81, 0, 0, 7, 0, 0, 0, 0, 0, 0, 0, 0, 0, 0, 0, 0] }
        .Move 1).m_writeRegisters.length = 16 :=
  ⟨by decide, by decide,
    (sendCommand_changes_only_owned sumChecksum
      { m_port := (zeroedPort []).m_port
        m_writeRegisters := [0x81, 0, 0, 7, 0, 0, 0, 0, 0, 0, 0, 0, 0, 0, 0, 0] }
      .Move 1 (by decide) (by decide)).1⟩

/-! ## Write frames -/

/-- C3.  On a register file of 16 bytes, the array that `sendCommand`
passes to `write` is the write frame of the specification for the address
and register count of the topic, with the payload taken from the register
file as updated by the command; the payload has `registerCount * 2` bytes
and the frame `9 + 2 * registerCount`. -/
theorem sendCommand_frame (checksum : List Nat → Nat) (cp : CommunicationPort)
    (t : CommandTopic) (value : Nat)
    (hlen : cp.m_writeRegisters.length = 16) :
    (cp.sendCommand checksum t value).m_port.written =
        cp.m_port.written ++
          [specWriteFrame checksum (specAddress t) (specRegisterCount t)
            (cp.sendCommand checksum t value).m_writeRegisters]
    ∧ (((cp.sendCommand checksum t value).m_writeRegisters.drop (specAddress t)).take
          (specRegisterCount t * 2)).length = specRegisterCount t * 2
    ∧ (specWriteFrame checksum (specAddress t) (specRegisterCount t)
          (cp.sendCommand checksum t value).m_writeRegisters).length
        = 9 + 2 * specRegisterCount t := by
  obtain ⟨port, regs⟩ := cp
  obtain ⟨a0, a1, a2, a3, a4, a5, a6, a7, a8, a9, a10, a11, a12, a13, a14, a15, h⟩ :=
    length_sixteen hlen
  simp only at h
  subst h
  cases t
  all_goals
    refine ⟨?_, rfl, rfl⟩
    show (CommunicationPort.sendWriteCommand checksum _ _ _).m_port.written = _
    rw [sendWriteCommand_written]
    rfl

/-- Witness of C3: an Activation command with value 1 on a zeroed port. -/
theorem sendCommand_frame_witness :
    (zeroedPort []).m_writeRegisters.length = 16
    ∧ ((zeroedPort []).sendCommand sumChecksum .Activation 1).m_port.written =
        [[0x09, 0x10, 0x03, 0xE8, 0x00, 0x03, 0x06, 1, 0, 0, 0, 0, 0, 1, 14]] :=
  ⟨by decide, (sendCommand_frame sumChecksum (zeroedPort []) .Activation 1 (by decide)).1⟩

/-- C10.  On a register file of 16 bytes and for bytes `s` and `p`, a Speed
command with `s` followed by a RequestedPosition command with `p` writes
two frames: the first with payload `s` and the force byte (byte 5 of the
register file), the second with payload `p, s`. -/
theorem speed_then_position_payloads (checksum : List Nat → Nat) (cp : CommunicationPort)
    (s p : Nat)
    (hlen : cp.m_writeRegisters.length = 16) (hs : s < 256) (hp : p < 256) :
    ((cp.sendCommand checksum .Speed s).sendCommand checksum .RequestedPosition p).m_port.written
      = cp.m_port.written ++
        [ [0x09, 0x10, 0x03, 0xEC, 0x00, 0x01, 0x02, s, cp.m_writeRegisters.getD 5 0]
            ++ u16be (checksum
                [0x09, 0x10, 0x03, 0xEC, 0x00, 0x01, 0x02, s, cp.m_writeRegisters.getD 5 0]),
          [0x09, 0x10, 0x03, 0xEB, 0x00, 0x01, 0x02, p, s]
            ++ u16be (checksum [0x09, 0x10, 0x03, 0xEB, 0x00, 0x01, 0x02, p, s]) ] := by
  obtain ⟨port, regs⟩ := cp
  obtain ⟨a0, a1, a2, a3, a4, a5, a6, a7, a8, a9, a10, a11, a12, a13, a14, a15, h⟩ :=
    length_sixteen hlen
  simp only at h
  subst h
  show (CommunicationPort.sendWriteCommand checksum _ _ _).m_port.written = _
  rw [sendWriteCommand_written]
  show (CommunicationPort.sendWriteCommand checksum _ _ _).m_port.written ++ _ = _
  rw [sendWriteCommand_written]
  have hs' : s % 256 = s := Nat.mod_eq_of_lt hs
  have hp' : p % 256 = p := Nat.mod_eq_of_lt hp
  simp [sendCommand_regs, setByte, mid, u16be, slaveId, writeRegisterCode, writeRegistersStart,
    hs', hp', WriteRegisterAddress.Speed, WriteRegisterAddress.PositionRequest]

/-- Witness of C10: speed 200 then position 17 on a zeroed port. -/
theorem speed_then_position_payloads_witness :
    (zeroedPort []).m_writeRegisters.length = 16 ∧ 200 < 256 ∧ 17 < 256
    ∧ (((zeroedPort []).sendCommand sumChecksum .Speed 200).sendCommand sumChecksum
          .RequestedPosition 17).m_port.written
        = [[0x09, 0x10, 0x03, 0xEC, 0x00, 0x01, 0x02, 200, 0, 1, 211],
           [0x09, 0x10, 0x03, 0xEB, 0x00, 0x01, 0x02, 17, 200, 1, 227]] :=
  ⟨by decide, by decide, by decide,
    speed_then_position_payloads sumChecksum (zeroedPort []) 200 17
      (by decide) (by decide) (by decide)⟩


theorem waitLoop_some (n : Nat) (chunk : List Nat) (rest : List Event) (p : SerialPort)
    (response : List Nat) :
    waitLoop n (some chunk :: rest) p response =
      if n ≤ (p.readBuffer ++ chunk).length then
        waitLoop n rest
          { p with script := rest, readBuffer := (p.readBuffer ++ chunk).drop n,
                   waits := p.waits + 1 }
          ((p.readBuffer ++ chunk).take n)
      else
        waitLoop n rest
          { p with script := rest, readBuffer := p.readBuffer ++ chunk, waits := p.waits + 1 }
          response := rfl

theorem waitLoop_quiet (n : Nat) (tail : List Event)
    (htail : ∀ c, tail.head? ≠ some (some c)) (p : SerialPort) (response : List Nat) :
    waitLoop n tail p response
      = ({ p with script := tail.tail, waits := p.waits + 1 }, response) := by
  cases tail with
  | nil => rfl
  | cons e rest =>
    cases e with
    | none => rfl
    | some c => exact absurd rfl (htail c)

theorem waitLoop_drained (n : Nat) (hn : 0 < n) (tail : List Event)
    (htail : ∀ c, tail.head? ≠ some (some c)) (cs : List (List Nat)) :
    ∀ (p : SerialPort) (response : List Nat),
      p.readBuffer = [] → cs.flatten = [] →
      waitLoop n (cs.map some ++ tail) p response
        = ({ p with script := tail.tail, waits := p.waits + cs.length + 1 }, response) := by
  induction cs with
  | nil =>
    intro p response _ _
    simpa using waitLoop_quiet n tail htail p response
  | cons c cs ih =>
    intro p response hbuf hjoin
    simp only [List.flatten_cons, List.append_eq_nil] at hjoin
    obtain ⟨hc, hcs⟩ := hjoin
    subst hc
    rw [List.map_cons, List.cons_append, waitLoop_some, if_neg (by simp [hbuf]; omega)]
    rw [ih _ _ (by simp [hbuf]) hcs]
    simp only [List.length_cons, hbuf, List.append_nil]
    congr 2
    omega

theorem waitLoop_exact (n : Nat) (tail : List Event)
    (htail : ∀ c, tail.head? ≠ some (some c)) (cs : List (List Nat)) :
    ∀ (p : SerialPort) (response : List Nat),
      p.readBuffer.length < n → (p.readBuffer ++ cs.flatten).length = n →
      waitLoop n (cs.map some ++ tail) p response
        = ({ p with script := tail.tail, readBuffer := [], waits := p.waits + cs.length + 1 },
            p.readBuffer ++ cs.flatten) := by
  induction cs with
  | nil =>
    intro p response h1 h2
    simp at h2
    omega
  | cons c cs ih =>
    intro p response h1 h2
    simp only [List.flatten_cons, List.length_append] at h2
    rw [List.map_cons, List.cons_append, waitLoop_some]
    by_cases hc : n ≤ (p.readBuffer ++ c).length
    · rw [if_pos hc]
      simp only [List.length_append] at hc
      have hcs : cs.flatten = [] := List.length_eq_zero.mp (by omega)
      have hlen : (p.readBuffer ++ c).length = n := by simp; omega
      rw [waitLoop_drained n (by omega) tail htail cs _ _ (by simp [← hlen]) hcs]
      simp only [List.flatten_cons, hcs, List.append_nil, List.length_cons]
      rw [← hlen, List.take_length, List.drop_length]
      congr 2
      omega
    · rw [if_neg hc]
      simp only [List.length_append] at hc
      rw [ih _ _ (by simp only [List.length_append]; omega)
        (by simp only [List.length_append]; omega)]
      simp only [List.flatten_cons, List.append_assoc, List.length_cons]
      congr 2
      omega

theorem waitLoop_first_complete (n : Nat) (tail : List Event)
    (htail : ∀ c, tail.head? ≠ some (some c)) (cs : List (List Nat)) :
    ∀ (p : SerialPort) (response : List Nat),
      (p.readBuffer ++ cs.dropLast.flatten).length < n →
      n ≤ (p.readBuffer ++ cs.flatten).length →
      waitLoop n (cs.map some ++ tail) p response
        = ({ p with script := tail.tail, readBuffer := (p.readBuffer ++ cs.flatten).drop n,
                    waits := p.waits + cs.length + 1 },
            (p.readBuffer ++ cs.flatten).take n) := by
  induction cs with
  | nil =>
    intro p response h1 h2
    simp at h1 h2
    omega
  | cons c cs ih =>
    intro p response h1 h2
    rw [List.map_cons, List.cons_append, waitLoop_some]
    cases cs with
    | nil =>
      simp only [List.flatten_cons, List.flatten_nil, List.append_nil] at h2 ⊢
      rw [if_pos h2]
      simp only [List.map_nil, List.nil_append]
      rw [waitLoop_quiet n tail htail]
      simp
    | cons d ds =>
      simp only [List.dropLast_cons₂, List.flatten_cons, List.length_append] at h1 h2
      rw [if_neg (by simp only [List.length_append]; omega)]
      rw [ih _ _ (by simp only [List.length_append]; omega)
        (by simp only [List.flatten_cons, List.length_append]; omega)]
      simp only [List.flatten_cons, List.append_assoc, List.length_cons]
      congr 2
      omega

/-! ## Read frames -/

theorem sendReadCommand_written (order : OperandOrder) (checksum : List Nat → Nat)
    (cp : CommunicationPort) (index numberOfRegisters : Nat) :
    (cp.sendReadCommand order checksum index numberOfRegisters).2.m_port.written =
      cp.m_port.written ++
        [[slaveId, readRegisterCode]
            ++ u16be ((readRegistersStart + index % 256) % 65536)
            ++ u16be (numberOfRegisters % 65536)
          ++ u16be (checksum
              (match order with
                | .checksumFirst => []
                | .leftToRight =>
                    [slaveId, readRegisterCode]
                      ++ u16be ((readRegistersStart + index % 256) % 65536)
                      ++ u16be (numberOfRegisters % 65536)))] := by
  cases order <;>
    simp [CommunicationPort.sendReadCommand, waitLoop_written, SerialPort.write,
      SerialPort.flush, u16be]

/-- With the operands evaluated left to right, the array that
`sendReadCommand` passes to `write` is the read frame of the
specification. -/
theorem sendReadCommand_frame_leftToRight (checksum : List Nat → Nat)
    (cp : CommunicationPort) (index numberOfRegisters : Nat)
    (hi : index < 256) (hn : numberOfRegisters < 65536) :
    (cp.sendReadCommand .leftToRight checksum index numberOfRegisters).2.m_port.written
        = cp.m_port.written ++ [specReadFrame checksum index numberOfRegisters] := by
  rw [sendReadCommand_written]
  have h1 : index % 256 = index := Nat.mod_eq_of_lt hi
  have h2 : numberOfRegisters % 65536 = numberOfRegisters := Nat.mod_eq_of_lt hn
  have h3 : (readRegistersStart + index) % 65536 = 0x07D0 + index := by
    have : readRegistersStart = 0x07D0 := by decide
    rw [this]; omega
  have h4 : (0x07D0 + index) / 256 % 256 = (0x07D0 + index) / 256 := by omega
  have h6 : numberOfRegisters / 256 % 256 = numberOfRegisters / 256 := by omega
  simp [specReadFrame, u16be, slaveId, readRegisterCode, h1, h2, h3, h4, h6]

theorem sendReadCommand_result (order : OperandOrder) (checksum : List Nat → Nat)
    (cp : CommunicationPort) (index numberOfRegisters : Nat) :
    ∃ arr : List Nat,
      cp.sendReadCommand order checksum index numberOfRegisters
        = (mid (waitLoop (3 + numberOfRegisters % 65536 * 2 + 2) cp.m_port.script
                  ((cp.m_port.flush).write arr) []).2
              3 (numberOfRegisters % 65536 * 2),
            { cp with
              m_port := (waitLoop (3 + numberOfRegisters % 65536 * 2 + 2) cp.m_port.script
                  ((cp.m_port.flush).write arr) []).1 }) :=
  ⟨_, rfl⟩

theorem sendReadCommand_payload (order : OperandOrder) (checksum : List Nat → Nat)
    (cp : CommunicationPort) (index n : Nat) (header payload crc : List Nat) (cs : List (List Nat)) (tail : List Event)
    (hn : n < 65536)
    (hheader : header.length = 3) (hpayload : payload.length = 2 * n) (hcrc : crc.length = 2)
    (hbuf : cp.m_port.readBuffer = [])
    (hscript : cp.m_port.script = cs.map some ++ tail)
    (htail : ∀ c, tail.head? ≠ some (some c))
    (hcs : cs.flatten = header ++ payload ++ crc) :
    (cp.sendReadCommand order checksum index n).1 = payload := by
  obtain ⟨arr, harr⟩ := sendReadCommand_result order checksum cp index n
  rw [harr, hscript, Nat.mod_eq_of_lt hn]
  rw [waitLoop_exact _ tail htail cs _ _
    (by simp [SerialPort.write, SerialPort.flush, hbuf])
    (by simp [SerialPort.write, SerialPort.flush, hbuf, hcs, hheader, hpayload, hcrc]; omega)]
  simp only [SerialPort.write, SerialPort.flush, hbuf, List.nil_append, hcs, mid]
  rw [List.append_assoc, List.drop_left' hheader, List.take_left' (by omega)]

/-- C9.  When the read buffer is empty and the line delivers, in any
number of pieces, exactly a 3 byte header, `2 * n` payload bytes and 2
checksum bytes before a wait times out, `sendReadCommand` returns the
payload bytes, whatever the header and the checksum bytes are. -/
theorem sendReadCommand_returns_payload (order : OperandOrder) (checksum : List Nat → Nat)
    (cp : CommunicationPort) (index n : Nat) (header payload crc : List Nat) (cs : List (List Nat)) (tail : List Event)
    (hn : n < 65536)
    (hheader : header.length = 3) (hpayload : payload.length = 2 * n) (hcrc : crc.length = 2)
    (hbuf : cp.m_port.readBuffer = [])
    (hscript : cp.m_port.script = cs.map some ++ tail)
    (htail : ∀ c, tail.head? ≠ some (some c))
    (hcs : cs.flatten = header ++ payload ++ crc) :
    (cp.sendReadCommand order checksum index n).1 = payload :=
  sendReadCommand_payload order checksum cp index n header payload crc cs tail
    hn hheader hpayload hcrc hbuf hscript htail hcs

/-- Witness of C9: register count 2, the response arriving in two pieces. -/
theorem sendReadCommand_returns_payload_witness :
    (zeroedPort [some [9, 3, 4, 0xAA], some [0xBB, 0xCC, 0xDD, 0x12, 0x34], none]
        |>.sendReadCommand .checksumFirst sumChecksum 0 2).1 = [0xAA, 0xBB, 0xCC, 0xDD] :=
  sendReadCommand_returns_payload .checksumFirst sumChecksum
    (zeroedPort [some [9, 3, 4, 0xAA], some [0xBB, 0xCC, 0xDD, 0x12, 0x34], none])
    0 2 [9, 3, 4] [0xAA, 0xBB, 0xCC, 0xDD] [0x12, 0x34]
    [[9, 3, 4, 0xAA], [0xBB, 0xCC, 0xDD, 0x12, 0x34]] [none]
    (by decide) (by decide) (by decide) (by decide) rfl rfl (by intro c; simp) rfl

theorem testBit_five (j : Nat) : Nat.testBit 5 j = (decide (j = 0) || decide (j = 2)) := by
  rcases j with _ | _ | _ | j
  · decide
  · decide
  · decide
  · have h : Nat.testBit 5 (j + 3) = false :=
      Nat.testBit_lt_two_pow
        (calc 5 < 2 ^ 3 := by norm_num
          _ ≤ 2 ^ (j + 3) := Nat.pow_le_pow_right (by norm_num) (by omega))
    simp [h]

/-- C5 (as stated, refuted).  A response whose status byte is `0x08` (bit 3
set) makes `query(Activation)` return 0: bit 3 is not passed through,
whereas the mask `0x0D` of the claim would give 8. -/
theorem query_activation_drops_bit_three :
    ((zeroedPort [some [9, 3, 2, 0x08, 0, 0, 0], none]).query .checksumFirst sumChecksum .Activation).1
        = Except.ok 0
    ∧ Nat.testBit 0x08 3 = true ∧ Nat.testBit 0 3 = false
    ∧ (0x08 &&& 0x0D : Nat) = 8 := by
  refine ⟨rfl, ?_, ?_, ?_⟩ <;> decide

/-- C5 (amended).  When the read buffer is empty and the line delivers, in
any number of pieces, exactly the seven bytes of a response before a wait
times out, `query(Activation)` returns the first payload byte ANDed with
`0x05`, the OR of the enumerators `0x01`, `0x04` and `0x05`: bits 0 and 2
of the status byte pass through and every other bit of the result is 0. -/
theorem query_activation_mask (order : OperandOrder) (checksum : List Nat → Nat)
    (cp : CommunicationPort)
    (h0 h1 h2 b0 b1 c0 c1 : Nat) (cs : List (List Nat)) (tail : List Event)
    (hbuf : cp.m_port.readBuffer = [])
    (hscript : cp.m_port.script = cs.map some ++ tail)
    (htail : ∀ c, tail.head? ≠ some (some c))
    (hcs : cs.flatten = [h0, h1, h2, b0, b1, c0, c1]) :
    (cp.query order checksum .Activation).1 = Except.ok (b0 &&& 0x05)
    ∧ ∀ j : Nat, (b0 &&& 0x05).testBit j = (b0.testBit j && (decide (j = 0) || decide (j = 2))) := by
  constructor
  · have hp := sendReadCommand_payload order checksum cp 0 1 [h0, h1, h2] [b0, b1] [c0, c1] cs tail
      (by decide) rfl rfl rfl hbuf hscript htail (by simpa using hcs)
    show (front (cp.sendReadCommand order checksum 0 1).1).map _ = _
    rw [hp]
    have hle : b0 &&& 5 < 256 := lt_of_le_of_lt Nat.and_le_right (by norm_num)
    show Except.ok ((b0 &&& 5) % 256) = Except.ok (b0 &&& 5)
    rw [Nat.mod_eq_of_lt hle]
  · intro j
    rw [Nat.testBit_and, testBit_five]

/-- Witness of C5 (amended): status byte `0x3F`, the response in one piece. -/
theorem query_activation_mask_witness :
    ((zeroedPort [some [9, 3, 2, 0x3F, 0, 0, 0], none]).query .checksumFirst sumChecksum .Activation).1
        = Except.ok 5 :=
  (query_activation_mask .checksumFirst sumChecksum (zeroedPort [some [9, 3, 2, 0x3F, 0, 0, 0], none])
    9 3 2 0x3F 0 0 0 [[9, 3, 2, 0x3F, 0, 0, 0]] [none] rfl rfl (by intro c; simp) rfl).1

/-- C6 (as stated, refuted).  With two complete responses on the line,
`sendReadCommand` returns the payload of the second one and has waited
three times; and after a single complete write response `sendWriteCommand`
has waited twice: the loop waits again after every read. -/
theorem exchange_waits_again_and_overwrites :
    ((zeroedPort [some [9, 3, 2, 0xAA, 0xBB, 1, 2], some [9, 3, 2, 0xCC, 0xDD, 3, 4], none]
        ).sendReadCommand .checksumFirst sumChecksum 0 1).1 = [0xCC, 0xDD]
    ∧ ((zeroedPort [some [9, 3, 2, 0xAA, 0xBB, 1, 2], some [9, 3, 2, 0xCC, 0xDD, 3, 4], none]
        ).sendReadCommand .checksumFirst sumChecksum 0 1).2.m_port.waits = 3
    ∧ ((zeroedPort [some [9, 16, 3, 232, 0, 1, 0, 5], none]
        ).sendWriteCommand sumChecksum 0 1).m_port.waits = 2 := by
  refine ⟨?_, ?_, ?_⟩ <;> decide

/-- C6 (amended).  In the response loop of both exchanges: when a
successful wait is the first to find at least `n` bytes available and the
wait after it fails, the loop ends after that one further wait, its
response is exactly the first `n` bytes then available, and the remaining
bytes stay in the read buffer. -/
theorem exchange_first_complete_then_quiet (n : Nat) (cs : List (List Nat)) (tail : List Event)
    (p : SerialPort) (response : List Nat)
    (htail : ∀ c, tail.head? ≠ some (some c))
    (hbefore : (p.readBuffer ++ cs.dropLast.flatten).length < n)
    (hnow : n ≤ (p.readBuffer ++ cs.flatten).length) :
    waitLoop n (cs.map some ++ tail) p response
        = ({ p with script := tail.tail, readBuffer := (p.readBuffer ++ cs.flatten).drop n,
                    waits := p.waits + cs.length + 1 },
            (p.readBuffer ++ cs.flatten).take n)
    ∧ ((p.readBuffer ++ cs.flatten).take n).length = n :=
  ⟨waitLoop_first_complete n tail htail cs p response hbefore hnow,
    by rw [List.length_take]; omega⟩

/-- Witness of C6 (amended): eight bytes expected, arriving as 3 + 6 bytes,
then a timeout. -/
theorem exchange_first_complete_then_quiet_witness :
    (waitLoop 8 [some [1, 2, 3], some [4, 5, 6, 7, 8, 9], none] (zeroedPort []).m_port []).2
        = [1, 2, 3, 4, 5, 6, 7, 8]
    ∧ (waitLoop 8 [some [1, 2, 3], some [4, 5, 6, 7, 8, 9], none] (zeroedPort []).m_port []).1.waits
        = 3 :=
  have h := (exchange_first_complete_then_quiet 8 [[1, 2, 3], [4, 5, 6, 7, 8, 9]] [none]
    (zeroedPort []).m_port [] (by intro c; simp) (by decide) (by decide)).1
  ⟨congrArg Prod.snd h, congrArg (fun r => r.1.waits) h⟩

/-- C7 (as stated, refuted).  On a line that never becomes ready,
`sendReadCommand` returns the empty array as an ordinary value, and
`query` calls `front()` on that empty array. -/
theorem query_silent_line_takes_front_of_empty :
    ((zeroedPort []).sendReadCommand .checksumFirst sumChecksum 0 1).1 = []
    ∧ ((zeroedPort []).query .checksumFirst sumChecksum .Activation).1 = Except.error Fault.frontOfEmptyArray
    ∧ ((zeroedPort [none, none]).query .checksumFirst sumChecksum .Activation).1
        = Except.error Fault.frontOfEmptyArray :=
  ⟨rfl, rfl, rfl⟩

/-- C7 (amended).  On a line whose waits all time out, the read exchange
makes exactly one wait and `sendReadCommand` returns the empty array. -/
theorem sendReadCommand_silent_line (order : OperandOrder) (checksum : List Nat → Nat)
    (cp : CommunicationPort) (index n : Nat)
    (hsilent : ∀ e ∈ cp.m_port.script, e = none) :
    (cp.sendReadCommand order checksum index n).1 = []
    ∧ (cp.sendReadCommand order checksum index n).2.m_port.waits = cp.m_port.waits + 1 := by
  have htail : ∀ c, cp.m_port.script.head? ≠ some (some c) := by
    intro c hc
    have hmem : some c ∈ cp.m_port.script := List.mem_of_mem_head? hc
    exact absurd (hsilent _ hmem) (by simp)
  obtain ⟨arr, harr⟩ := sendReadCommand_result order checksum cp index n
  rw [harr, waitLoop_quiet _ _ htail]
  exact ⟨by simp [mid], rfl⟩

/-- Witness of C7 (amended): a line with three timeouts in a row. -/
theorem sendReadCommand_silent_line_witness :
    (∀ e ∈ ([none, none, none] : List Event), e = none)
    ∧ ((zeroedPort [none, none, none]).sendReadCommand .checksumFirst sumChecksum 0 1).1 = []
    ∧ ((zeroedPort [none, none, none]).sendReadCommand .checksumFirst sumChecksum 0 1).2.m_port.waits = 1 :=
  ⟨by decide, sendReadCommand_silent_line .checksumFirst sumChecksum (zeroedPort [none, none, none]) 0 1
    (by decide)⟩

/-! ## Construction -/

theorem construct_length (script : List Event) (fresh : Nat → Nat) :
    (CommunicationPort.construct script fresh).m_writeRegisters.length = 16 := by
  simp [CommunicationPort.construct, resize, numberOfWriteRegisters]

/-- C8 (the code departs from the claim).  The constructor only resizes the
register file: when the allocation holds `0xFF` bytes, the 16 bytes of the
register file are `0xFF`, and the first frame, sent by a Move command with
value 1, carries the payload `0xFF, 0xFF`. -/
theorem construct_keeps_allocation_content :
    (CommunicationPort.construct [] (fun _ => 0xFF)).m_writeRegisters = List.replicate 16 0xFF
    ∧ lastWritten ((CommunicationPort.construct [] (fun _ => 0xFF)).sendCommand sumChecksum
        .Move 1) = [0x09, 0x10, 0x03, 0xE8, 0x00, 0x01, 0x02, 0xFF, 0xFF, 3, 5] := by
  constructor <;> decide

end robotiq
